import Mathlib

/-!
Verification of the client-side real-time synchronization layer of a
URL-shortening web client: the local URL-record collection kept by the
record synchronizer hook, its reconciliation handlers for server-pushed
events, the reconnect/backoff state machine of the push-channel manager and
event dispatch, and the token-expiry check of the credential store.

Each definition is a shallow embedding of the corresponding TypeScript
function, translated directly from the source.
-/

/-- The owning user of a short URL, from the User interface in
src/types/auth.ts (id, username, email, createdAt, updatedAt). -/
structure User where
  id : Nat
  username : String
  email : String
  createdAt : String
  updatedAt : String
  deriving Repr, DecidableEq

/-- A URL record, from the ShortUrl interface in src/types/url.ts.
The click counter clicksTotal is a non-negative integer. -/
structure ShortUrl where
  id : Nat
  longUrl : String
  shortCode : String
  expirationDate : Option String
  clicksTotal : Nat
  user : User
  createdAt : String
  updatedAt : String
  deriving Repr, DecidableEq

/-- updateUrlClicks from src/hooks/useUrls.ts (lines 82-88): the
reconciliation of a ClickUpdate push event.  Maps over the collection,
replacing the clicksTotal of every record whose id matches with the
pushed absolute count and leaving every other record untouched. -/
def updateUrlClicks (urlId : Nat) (newClickCount : Nat) (urls : List ShortUrl) :
    List ShortUrl :=
  urls.map fun url =>
    if url.id == urlId then { url with clicksTotal := newClickCount } else url

/-- The subscribeToUrlCreated handler body from src/hooks/useUrls.ts
(lines 104-115): the reconciliation of a RecordCreated push event.
Checks whether a record with the id of the pushed record already exists and
prepends the pushed record only if it does not. -/
def handleUrlCreated (shortUrl : ShortUrl) (prev : List ShortUrl) :
    List ShortUrl :=
  let alreadyExists := prev.any fun url => url.id == shortUrl.id
  if !alreadyExists then shortUrl :: prev else prev

/-- The subscribeToUrlDeleted handler body from src/hooks/useUrls.ts
(lines 117-121): the reconciliation of a RecordDeleted push event.
Filters out every record whose id equals the pushed id. -/
def handleUrlDeleted (shortUrlId : Nat) (prev : List ShortUrl) :
    List ShortUrl :=
  prev.filter fun url => url.id != shortUrlId

/-- The local-collection insertion performed by createUrl in
src/hooks/useUrls.ts (line 38): the newly created record is prepended
to the collection. -/
def createUrlInsert (newUrl : ShortUrl) (prev : List ShortUrl) :
    List ShortUrl :=
  newUrl :: prev

/-- deleteUrl from src/hooks/useUrls.ts (lines 49-58), with the gateway
outcome of the HTTP call made an explicit argument.  On gateway success the
record is filtered out of the local collection; on gateway failure the
error is rethrown and the collection is never touched (setUrls is only
reached after the awaited delete call succeeds). -/
def deleteUrl (gatewayResult : Except String Unit) (id : Nat)
    (urls : List ShortUrl) : Except String Unit × List ShortUrl :=
  match gatewayResult with
  | Except.ok _ => (Except.ok (), urls.filter fun url => url.id != id)
  | Except.error e => (Except.error e, urls)

/-- Number of records in the collection carrying a given id. -/
def countId (urls : List ShortUrl) (i : Nat) : Nat :=
  (urls.filter fun u => u.id == i).length

/-- A concrete user for witnesses and counterexamples. -/
def sampleUser : User :=
  { id := 1, username := "alice", email := "alice@example.com"
    createdAt := "2024-01-01", updatedAt := "2024-01-01" }

/-- A concrete record builder for witnesses and counterexamples. -/
def mkUrl (i : Nat) (clicks : Nat) : ShortUrl :=
  { id := i, longUrl := "https://example.com", shortCode := "abc"
    expirationDate := none, clicksTotal := clicks, user := sampleUser
    createdAt := "2024-01-02", updatedAt := "2024-01-02" }

/-- Outcome of one call to SocketManager.handleReconnect (src/unnamed/part_002
lines 90-107): either the terminal maxReconnectAttemptsReached event is
emitted and nothing is scheduled, or a reconnect is scheduled after the
given delay in milliseconds. -/
inductive ReconnectAction where
  | emitTerminal
  | schedule (delay : Nat)
  deriving Repr, DecidableEq

/-- The reconnect-relevant fields of SocketManager (src/unnamed/part_002
lines 9-11): the attempt counter, the configured maximum, and the base
delay in milliseconds. -/
structure ReconnectState where
  reconnectAttempts : Nat
  maxReconnectAttempts : Nat
  reconnectDelay : Nat
  deriving Repr, DecidableEq

/-- SocketManager.handleReconnect from src/unnamed/part_002 (lines 90-107).
If the attempt counter has reached the maximum, the terminal event is
emitted and no reconnect is scheduled; otherwise the counter is
incremented and a reconnect is scheduled after
reconnectDelay times 2 to the power of the new attempt number minus 1. -/
def handleReconnect (s : ReconnectState) : ReconnectState × ReconnectAction :=
  if s.reconnectAttempts ≥ s.maxReconnectAttempts then
    (s, ReconnectAction.emitTerminal)
  else
    let attempts := s.reconnectAttempts + 1
    let delay := s.reconnectDelay * 2 ^ (attempts - 1)
    ({ s with reconnectAttempts := attempts }, ReconnectAction.schedule delay)

/-- Number of terminal maxReconnectAttemptsReached emissions over a run of
handleReconnect calls in which every scheduled reconnect attempt fails
(each connect failure fires connect_error, which calls handleReconnect
again), bounded by the given fuel.  The run ends as soon as the terminal
branch is taken, since that branch schedules nothing and therefore causes
no further connection attempt.  The fuel only bounds the number of
scheduled attempts; maxReconnectAttempts minus reconnectAttempts is
always enough, as proved below. -/
def runTerminalCount (fuel : Nat) (s : ReconnectState) : Nat :=
  match handleReconnect s with
  | (_, ReconnectAction.emitTerminal) => 1
  | (s2, ReconnectAction.schedule _) =>
    match fuel with
    | 0 => 0
    | g + 1 => runTerminalCount g s2

/-- Total terminal emissions of the automatic reconnect run starting from
state s, with the (always sufficient) fuel of remaining attempts. -/
def terminalEmissions (s : ReconnectState) : Nat :=
  runTerminalCount (s.maxReconnectAttempts - s.reconnectAttempts) s

/-- The fields of SocketManager touched by disconnect and by the
connect-success handler (src/unnamed/part_002 lines 5-12): whether the
socket object exists (socket is non-null), the transport-level connected
flag, the isConnected flag of the manager, the reconnect attempt counter, and
the listeners map (event name paired with the registered callback
handles). -/
structure SocketState where
  socketPresent : Bool
  socketConnected : Bool
  isConnected : Bool
  reconnectAttempts : Nat
  listeners : List (String × List Nat)
  deriving Repr, DecidableEq

/-- SocketManager.disconnect from src/unnamed/part_002 (lines 109-116):
when a socket object exists, the transport is disconnected, the socket
reference is dropped, the isConnected flag cleared and the listeners map
cleared; when no socket exists, nothing happens. -/
def disconnect (s : SocketState) : SocketState :=
  if s.socketPresent then
    { s with socketPresent := false, socketConnected := false,
             isConnected := false, listeners := [] }
  else s

/-- The connect-event handler installed by setupEventListeners
(src/unnamed/part_002 lines 47-52): on a successful connection the
manager sets isConnected and resets the reconnect attempt counter to 0. -/
def handleConnectEvent (s : SocketState) : SocketState :=
  { s with isConnected := true, reconnectAttempts := 0 }

/-- The log entry produced for one callback invocation inside
SocketManager.emit: none when the callback returns normally, the logged
error message when it throws. -/
def callbackLog (cb : Nat → Except String Unit) (data : Nat) : Option String :=
  match cb data with
  | Except.ok _ => none
  | Except.error e => some e

/-- The forEach dispatch loop of SocketManager.emit (src/unnamed/part_002
lines 141-147), with exception flow made explicit in the Except monad: a
callback that throws produces an error which, without the try/catch,
would abort the whole loop; the catch clause turns it into a logged
entry and the loop continues with the remaining callbacks. -/
def runListeners (callbacks : List (Nat → Except String Unit)) (data : Nat) :
    Except String (List (Option String)) :=
  match callbacks with
  | [] => Except.ok []
  | cb :: rest =>
    let attempt : Except String (Option String) :=
      match (cb data).map fun _ => (none : Option String) with
      | Except.ok v => Except.ok v
      | Except.error e => Except.ok (some e)
    match attempt with
    | Except.error e => Except.error e
    | Except.ok logged =>
      match runListeners rest data with
      | Except.error e => Except.error e
      | Except.ok restLog => Except.ok (logged :: restLog)

/-- SocketManager.emit from src/unnamed/part_002 (lines 138-149): looks up
the listener set registered for the event name and dispatches the payload
to each registered callback in turn, catching and logging any exception a
callback throws.  When no listener set exists for the event, nothing
runs. -/
def emit (listeners : List (String × List (Nat → Except String Unit)))
    (event : String) (data : Nat) : Except String (List (Option String)) :=
  match listeners.lookup event with
  | none => Except.ok []
  | some cbs => runListeners cbs data

/-- The decoded JWT payload of a stored token, from
AuthManager.isTokenExpired (src/src/app/helpers/auth.ts lines 139-149):
exp is the embedded expiry claim in seconds; none models a token whose
payload fails to decode or parse (the catch branch treats it as
expired). -/
structure AuthToken where
  exp : Option Int
  deriving Repr, DecidableEq

/-- The authentication-relevant fields of AuthManager.authState
(src/src/app/helpers/auth.ts lines 6-11): the stored token, if any, and
the in-memory isAuthenticated flag. -/
structure AuthState where
  token : Option AuthToken
  isAuthenticated : Bool
  deriving Repr, DecidableEq

/-- AuthManager.isTokenExpired (src/src/app/helpers/auth.ts lines 139-149),
with the current time in milliseconds as an explicit argument: no stored
token means expired; an unparseable payload means expired; otherwise the
token is expired exactly when now is greater than or equal to the exp
claim times 1000. -/
def isTokenExpired (now : Int) (s : AuthState) : Bool :=
  match s.token with
  | none => true
  | some t =>
    match t.exp with
    | none => true
    | some e => decide (now ≥ e * 1000)

/-- AuthManager.isAuthenticated (src/src/app/helpers/auth.ts lines
159-161): the in-memory flag conjoined with the token not being
expired. -/
def isAuthenticated (now : Int) (s : AuthState) : Bool :=
  s.isAuthenticated && !(isTokenExpired now s)

/-- A concrete socket-manager state for the disconnect counterexample:
socket present and connected, three reconnect attempts consumed, one
registered clickUpdate listener. -/
def sampleSocketState : SocketState :=
  { socketPresent := true, socketConnected := true, isConnected := true,
    reconnectAttempts := 3, listeners := [("clickUpdate", [0, 1])] }

/-- Pointwise description of ClickUpdate reconciliation: position i of the
reconciled collection is position i of the original, with the click
counter replaced by the pushed count when the id matches. -/
theorem updateUrlClicks_get (urlId newClickCount : Nat) (urls : List ShortUrl)
    (i : Nat) (h : i < urls.length)
    (h2 : i < (updateUrlClicks urlId newClickCount urls).length) :
    (updateUrlClicks urlId newClickCount urls).get ⟨i, h2⟩ =
      (if (urls.get ⟨i, h⟩).id = urlId
       then { urls.get ⟨i, h⟩ with clicksTotal := newClickCount }
       else urls.get ⟨i, h⟩) := by
  unfold updateUrlClicks
  simp only [List.get_eq_getElem, List.getElem_map]
  by_cases hid : (urls.get ⟨i, h⟩).id = urlId
  · simp only [List.get_eq_getElem] at hid
    simp [hid]
  · simp only [List.get_eq_getElem] at hid
    simp [hid]

/-- Claim C1: reconciling a ClickUpdate event preserves the collection
length, leaves the collection unchanged when no record carries the
pushed id, and otherwise rewrites exactly the matching positions: the
record at a matching position gets its click counter set to the pushed
count (absolute assignment) with all other fields unchanged, and every
non-matching position is unchanged. -/
theorem updateUrlClicks_spec (urls : List ShortUrl) (urlId newClickCount : Nat) :
    (updateUrlClicks urlId newClickCount urls).length = urls.length ∧
    ((∀ u ∈ urls, u.id ≠ urlId) → updateUrlClicks urlId newClickCount urls = urls) ∧
    (∀ i (h : i < urls.length) (h2 : i < (updateUrlClicks urlId newClickCount urls).length),
      (updateUrlClicks urlId newClickCount urls).get ⟨i, h2⟩ =
        (if (urls.get ⟨i, h⟩).id = urlId
         then { urls.get ⟨i, h⟩ with clicksTotal := newClickCount }
         else urls.get ⟨i, h⟩)) := by
  refine ⟨by simp [updateUrlClicks], ?_, ?_⟩
  · intro habsent
    induction urls with
    | nil => rfl
    | cons u rest ih =>
      have hu : u.id ≠ urlId := habsent u (List.mem_cons_self u rest)
      have hrest := ih fun v hv => habsent v (List.mem_cons_of_mem u hv)
      simp only [updateUrlClicks, List.map_cons] at hrest ⊢
      rw [if_neg (by simpa using hu)]
      exact congrArg (List.cons u) hrest
  · intro i h h2
    exact updateUrlClicks_get urlId newClickCount urls i h h2

/-- Claim C1 witness: the spec scenarios.  A collection holding the
single record id 1 with 3 clicks becomes, on ClickUpdate id 1 count 7,
the same record with 7 clicks; the empty collection is unchanged by
ClickUpdate id 9 count 2. -/
theorem updateUrlClicks_spec_witness :
    (updateUrlClicks 1 7 [mkUrl 1 3]).get ⟨0, by decide⟩ = mkUrl 1 7 ∧
    updateUrlClicks 9 2 [] = [] := by
  constructor
  · have hget := (updateUrlClicks_spec [mkUrl 1 3] 1 7).2.2 0 (by decide) (by decide)
    rw [hget]
    decide
  · exact (updateUrlClicks_spec [] 9 2).2.1 (by intro u hu; cases hu)

/-- Counting records with a given id in a cons collection. -/
theorem countId_cons (u : ShortUrl) (l : List ShortUrl) (i : Nat) :
    countId (u :: l) i = (if u.id = i then 1 else 0) + countId l i := by
  by_cases h : u.id = i <;> simp [countId, List.filter_cons, h]
  omega

/-- A collection has no record with a given id exactly when its count for
that id is zero. -/
theorem countId_eq_zero (l : List ShortUrl) (i : Nat) :
    countId l i = 0 ↔ ∀ u ∈ l, u.id ≠ i := by
  induction l with
  | nil => simp [countId]
  | cons u rest ih =>
    rw [countId_cons]
    by_cases h : u.id = i
    · simp [h]
    · simp [h, ih]

/-- The existence check used by the RecordCreated handler agrees with
membership of the id. -/
theorem any_id_eq (l : List ShortUrl) (i : Nat) :
    (l.any fun u => u.id == i) = true ↔ ∃ u ∈ l, u.id = i := by
  simp [List.any_eq_true]

/-- When some record carries the id, the count for that id is positive. -/
theorem countId_pos_of_mem (l : List ShortUrl) (i : Nat)
    (h : ∃ u ∈ l, u.id = i) : 1 ≤ countId l i := by
  by_contra hlt
  have h0 : countId l i = 0 := by omega
  obtain ⟨u, hu, hid⟩ := h
  exact (countId_eq_zero l i).mp h0 u hu hid

/-- Claim C2: the RecordCreated reconciliation handler prepends the pushed
record exactly when no record with its id is present and leaves the
collection unchanged otherwise; if the collection held at most one record
with that id beforehand, it holds exactly one afterwards; and a create
insertion followed by the RecordCreated push for the same id leaves
exactly one record with that id. -/
theorem handleUrlCreated_spec (shortUrl : ShortUrl) (prev : List ShortUrl) :
    ((∀ u ∈ prev, u.id ≠ shortUrl.id) →
      handleUrlCreated shortUrl prev = shortUrl :: prev) ∧
    ((∃ u ∈ prev, u.id = shortUrl.id) →
      handleUrlCreated shortUrl prev = prev) ∧
    (countId prev shortUrl.id ≤ 1 →
      countId (handleUrlCreated shortUrl prev) shortUrl.id = 1) ∧
    (∀ pushed : ShortUrl, pushed.id = shortUrl.id →
      countId prev shortUrl.id = 0 →
      countId (handleUrlCreated pushed (createUrlInsert shortUrl prev))
        shortUrl.id = 1) := by
  refine ⟨?_, ?_, ?_, ?_⟩
  · intro habsent
    have hany : (prev.any fun u => u.id == shortUrl.id) = false := by
      rw [← Bool.not_eq_true, any_id_eq]
      rintro ⟨u, hu, hid⟩
      exact habsent u hu hid
    simp [handleUrlCreated, hany]
  · intro hpresent
    have hany : (prev.any fun u => u.id == shortUrl.id) = true :=
      (any_id_eq prev shortUrl.id).mpr hpresent
    simp [handleUrlCreated, hany]
  · intro hle
    by_cases hany : (prev.any fun u => u.id == shortUrl.id) = true
    · have hpos := countId_pos_of_mem prev shortUrl.id ((any_id_eq prev shortUrl.id).mp hany)
      simp only [handleUrlCreated, hany]
      simp only [Bool.not_true, Bool.false_eq_true, if_false]
      omega
    · have hzero : countId prev shortUrl.id = 0 := by
        rw [countId_eq_zero]
        intro u hu hid
        exact hany ((any_id_eq prev shortUrl.id).mpr ⟨u, hu, hid⟩)
      have hany' : (prev.any fun u => u.id == shortUrl.id) = false := by
        simpa using hany
      simp only [handleUrlCreated, hany', Bool.not_false, if_true]
      rw [countId_cons, hzero]
      simp
  · intro pushed hpid hzero
    have hmem : ∃ u ∈ createUrlInsert shortUrl prev, u.id = pushed.id := by
      exact ⟨shortUrl, List.mem_cons_self shortUrl prev, by rw [hpid]⟩
    have hany : ((createUrlInsert shortUrl prev).any fun u => u.id == pushed.id) = true :=
      (any_id_eq _ pushed.id).mpr hmem
    simp only [handleUrlCreated, hany, Bool.not_true, Bool.false_eq_true, if_false]
    rw [createUrlInsert, countId_cons, hzero]
    simp

/-- Claim C2 witness: pushing a fresh record with id 2 onto a collection
holding only id 1 prepends it, and a create of id 2 followed by the
RecordCreated push for id 2 leaves exactly one record with id 2. -/
theorem handleUrlCreated_spec_witness :
    handleUrlCreated (mkUrl 2 0) [mkUrl 1 3] = [mkUrl 2 0, mkUrl 1 3] ∧
    countId (handleUrlCreated (mkUrl 2 0)
      (createUrlInsert (mkUrl 2 0) [mkUrl 1 3])) (mkUrl 2 0).id = 1 := by
  constructor
  · exact (handleUrlCreated_spec (mkUrl 2 0) [mkUrl 1 3]).1 (by decide)
  · exact (handleUrlCreated_spec (mkUrl 2 0) [mkUrl 1 3]).2.2.2 (mkUrl 2 0) rfl (by decide)

/-- Claim C3: ClickUpdate reconciliation is idempotent: applying the same
event twice yields the same collection as applying it once. -/
theorem updateUrlClicks_idempotent (urlId newClickCount : Nat) (urls : List ShortUrl) :
    updateUrlClicks urlId newClickCount (updateUrlClicks urlId newClickCount urls) =
      updateUrlClicks urlId newClickCount urls := by
  induction urls with
  | nil => rfl
  | cons u rest ih =>
    simp only [updateUrlClicks, List.map_cons] at ih ⊢
    by_cases h : u.id = urlId
    · simpa [h] using ih
    · simpa [h] using ih

/-- Claim C4: applying the RecordDeleted reconciliation for an id and then
a ClickUpdate reconciliation for the same id leaves the collection with
no record of that id: a ClickUpdate arriving after a delete never
resurrects the record. -/
theorem no_resurrection (shortUrlId newClickCount : Nat) (urls : List ShortUrl) :
    ((updateUrlClicks shortUrlId newClickCount (handleUrlDeleted shortUrlId urls)).all
      fun u => u.id != shortUrlId) = true := by
  induction urls with
  | nil => rfl
  | cons u rest ih =>
    simp only [handleUrlDeleted, List.filter_cons] at ih ⊢
    by_cases h : u.id = shortUrlId
    · simpa [h] using ih
    · simp only [updateUrlClicks, List.map_cons] at ih ⊢
      simpa [h] using ih

/-- Claim C5: when the gateway delete call fails, deleteUrl rethrows the
error and the local collection is left exactly as it was (so it still
contains whatever record carried the id); only on gateway success is the
record filtered out of the local collection. -/
theorem deleteUrl_spec (e : String) (id : Nat) (urls : List ShortUrl) :
    (deleteUrl (Except.error e) id urls).2 = urls ∧
    (deleteUrl (Except.error e) id urls).1 = Except.error e ∧
    (deleteUrl (Except.ok ()) id urls).2 = urls.filter (fun u => u.id != id) :=
  ⟨rfl, rfl, rfl⟩

/-- With fuel at least the number of remaining attempts, the automatic
reconnect run emits the terminal event exactly once. -/
theorem runTerminalCount_eq_one (fuel : Nat) :
    ∀ s : ReconnectState,
      s.maxReconnectAttempts - s.reconnectAttempts ≤ fuel →
      runTerminalCount fuel s = 1 := by
  induction fuel with
  | zero =>
    intro s hle
    have hge : s.reconnectAttempts ≥ s.maxReconnectAttempts := by omega
    rw [runTerminalCount, handleReconnect, if_pos hge]
  | succ g ih =>
    intro s hle
    by_cases hge : s.reconnectAttempts ≥ s.maxReconnectAttempts
    · rw [runTerminalCount, handleReconnect, if_pos hge]
    · rw [runTerminalCount, handleReconnect, if_neg hge]
      exact ih { s with reconnectAttempts := s.reconnectAttempts + 1 } (by simp; omega)

/-- Claim C6: when handleReconnect schedules a reconnect, the new attempt
counter is the old one plus one and the scheduled delay is the base delay
times 2 to the power of the new attempt number minus one; once the
attempt counter has reached the configured maximum, handleReconnect emits
the terminal maxReconnectAttemptsReached event and schedules nothing, so
no further automatic attempt occurs; and over any maximal automatic run
in which every scheduled reconnect fails, the terminal event is emitted
exactly once. -/
theorem handleReconnect_spec (s : ReconnectState) :
    (∀ (s2 : ReconnectState) (d : Nat),
      handleReconnect s = (s2, ReconnectAction.schedule d) →
      s2.reconnectAttempts = s.reconnectAttempts + 1 ∧
      d = s.reconnectDelay * 2 ^ (s2.reconnectAttempts - 1)) ∧
    (s.reconnectAttempts ≥ s.maxReconnectAttempts →
      handleReconnect s = (s, ReconnectAction.emitTerminal)) ∧
    terminalEmissions s = 1 := by
  refine ⟨?_, ?_, ?_⟩
  · intro s2 d h
    rw [handleReconnect] at h
    by_cases hge : s.reconnectAttempts ≥ s.maxReconnectAttempts
    · rw [if_pos hge] at h
      exact absurd (congrArg Prod.snd h) (by simp)
    · rw [if_neg hge] at h
      have hs2 : s2 = { s with reconnectAttempts := s.reconnectAttempts + 1 } :=
        (congrArg Prod.fst h).symm
      have hd : ReconnectAction.schedule (s.reconnectDelay * 2 ^ (s.reconnectAttempts + 1 - 1)) =
          ReconnectAction.schedule d := congrArg Prod.snd h
      have hd' : d = s.reconnectDelay * 2 ^ (s.reconnectAttempts + 1 - 1) := by
        cases hd
        rfl
      constructor
      · rw [hs2]
      · rw [hd', hs2]
  · intro hge
    rw [handleReconnect, if_pos hge]
  · exact runTerminalCount_eq_one _ s (le_refl _)

/-- Claim C6 witness: from two consumed attempts out of five with base
delay 1000, handleReconnect schedules attempt three after
1000 times 2 squared milliseconds; at the cap of five attempts it emits
the terminal event and schedules nothing; and the full automatic run
from a fresh state emits the terminal event exactly once. -/
theorem handleReconnect_spec_witness :
    ((3 : Nat) = 2 + 1 ∧ (4000 : Nat) = 1000 * 2 ^ (3 - 1)) ∧
    handleReconnect ⟨5, 5, 1000⟩ = (⟨5, 5, 1000⟩, ReconnectAction.emitTerminal) ∧
    terminalEmissions ⟨0, 5, 1000⟩ = 1 := by
  refine ⟨?_, ?_, ?_⟩
  · exact (handleReconnect_spec ⟨2, 5, 1000⟩).1 ⟨3, 5, 1000⟩ 4000 (by decide)
  · exact (handleReconnect_spec ⟨5, 5, 1000⟩).2.1 (by decide)
  · exact (handleReconnect_spec ⟨0, 5, 1000⟩).2.2

/-- Claim C7 counterexample: disconnect does not reset the reconnect
attempt counter.  On a connected state with three consumed attempts,
the counter after disconnect is still three, not the initial value
zero. -/
theorem disconnect_keeps_attempts_counterexample :
    (disconnect sampleSocketState).reconnectAttempts = 3 ∧
    (disconnect sampleSocketState).reconnectAttempts ≠ 0 := by
  constructor
  · rfl
  · decide

/-- Claim C7 as amended: disconnect tears down the transport (drops the
socket, clears the connected flags) and clears all registered listeners
when a socket exists, and is a no-op (hence safe) when no socket exists;
in both cases it leaves the reconnect attempt counter unchanged — the
counter is reset to its initial value only by the connect-success
handler. -/
theorem disconnect_spec (s : SocketState) :
    (s.socketPresent = true →
      disconnect s = { s with socketPresent := false, socketConnected := false,
                              isConnected := false, listeners := [] }) ∧
    (disconnect s).reconnectAttempts = s.reconnectAttempts ∧
    (s.socketPresent = false → disconnect s = s) ∧
    (handleConnectEvent s).reconnectAttempts = 0 := by
  refine ⟨?_, ?_, ?_, rfl⟩
  · intro h
    rw [disconnect, if_pos h]
  · rw [disconnect]
    by_cases h : s.socketPresent = true
    · rw [if_pos h]
    · rw [if_neg h]
  · intro h
    rw [disconnect, if_neg (by rw [h]; exact Bool.false_ne_true)]

/-- Claim C7 witness: disconnect on the sample connected state clears the
socket, the flags and the listeners while keeping the attempt counter,
and disconnect on a state with no socket is a no-op. -/
theorem disconnect_spec_witness :
    disconnect sampleSocketState =
      { sampleSocketState with socketPresent := false, socketConnected := false,
                               isConnected := false, listeners := [] } ∧
    disconnect { sampleSocketState with socketPresent := false } =
      { sampleSocketState with socketPresent := false } := by
  constructor
  · exact (disconnect_spec sampleSocketState).1 rfl
  · exact (disconnect_spec { sampleSocketState with socketPresent := false }).2.2.1 rfl

/-- Claim C8: whenever the embedded exp claim of the stored token denotes a
time at or before the current time, isAuthenticated returns false, even
when a token is present and the in-memory authenticated flag is set; the
comparison now greater than or equal to exp times 1000 applies no
tolerance window, so the boundary instant itself already counts as
expired. -/
theorem isAuthenticated_false_of_expired (now : Int) (s : AuthState)
    (t : AuthToken) (e : Int) (htok : s.token = some t) (hexp : t.exp = some e)
    (hle : e * 1000 ≤ now) :
    isAuthenticated now s = false := by
  simp only [isAuthenticated, isTokenExpired, htok, hexp]
  rw [decide_eq_true hle]
  simp

/-- Claim C8 witness: with the current time at one million milliseconds
and a stored token whose exp claim is 999 seconds (one second in the
past), isAuthenticated is false although the in-memory flag is set and a
token is present. -/
theorem isAuthenticated_false_of_expired_witness :
    isAuthenticated 1000000
      { token := some { exp := some 999 }, isAuthenticated := true } = false :=
  isAuthenticated_false_of_expired 1000000
    { token := some { exp := some 999 }, isAuthenticated := true }
    { exp := some 999 } 999 rfl rfl (by decide)

/-- Claim C9 counterexample: the click counter is not monotonically
non-decreasing under reconciliation.  A ClickUpdate carrying the absolute
count 3 for a record currently holding 5 clicks lowers the counter from
5 to 3. -/
theorem updateUrlClicks_can_decrease :
    updateUrlClicks 1 3 [mkUrl 1 5] = [mkUrl 1 3] ∧
    (mkUrl 1 3).clicksTotal < (mkUrl 1 5).clicksTotal := by
  constructor
  · decide
  · decide

/-- Claim C9 as amended: the click counter is a non-negative integer, and
ClickUpdate reconciliation applies pushed counts as absolute assignments,
so the counter of an existing record never decreases provided every pushed
count is at least the current counter of the record (the client relies on the
server pushing non-decreasing totals and does not itself enforce
monotonicity). -/
theorem updateUrlClicks_monotone_of_le (urlId newClickCount : Nat)
    (urls : List ShortUrl)
    (hmono : ∀ u ∈ urls, u.id = urlId → u.clicksTotal ≤ newClickCount) :
    ∀ i (h : i < urls.length)
      (h2 : i < (updateUrlClicks urlId newClickCount urls).length),
      (urls.get ⟨i, h⟩).clicksTotal ≤
        ((updateUrlClicks urlId newClickCount urls).get ⟨i, h2⟩).clicksTotal := by
  intro i h h2
  rw [updateUrlClicks_get urlId newClickCount urls i h h2]
  have hmem : urls.get ⟨i, h⟩ ∈ urls := urls.get_mem i h
  by_cases hid : (urls.get ⟨i, h⟩).id = urlId
  · rw [if_pos hid]
    exact hmono (urls.get ⟨i, h⟩) hmem hid
  · rw [if_neg hid]

/-- Claim C9 amended witness: a pushed count of 7 for a record currently
holding 3 clicks does not decrease the counter. -/
theorem updateUrlClicks_monotone_of_le_witness :
    ([mkUrl 1 3].get ⟨0, by decide⟩).clicksTotal ≤
      ((updateUrlClicks 1 7 [mkUrl 1 3]).get ⟨0, by decide⟩).clicksTotal :=
  updateUrlClicks_monotone_of_le 1 7 [mkUrl 1 3]
    (by decide) 0 (by decide) (by decide)

/-- The dispatch loop over one callback list returns normally and logs
the outcome of every callback. -/
theorem runListeners_eq (callbacks : List (Nat → Except String Unit)) (data : Nat) :
    runListeners callbacks data =
      Except.ok (callbacks.map fun cb => callbackLog cb data) := by
  induction callbacks with
  | nil => rfl
  | cons cb rest ih =>
    simp only [runListeners, List.map_cons]
    cases hcb : cb data with
    | ok v => simp [hcb, Except.map, callbackLog, ih]
    | error e => simp [hcb, Except.map, callbackLog, ih]

/-- Claim C10: the emit dispatch loop returns normally for every listener
table, event name and payload — no callback exception propagates to the
caller — and produces one log entry per callback registered for the
event, the entry being exactly the outcome of invoking that callback on
the payload (none on normal return, the caught and logged error message
when the callback throws); hence every registered handler is invoked even
when an earlier one throws. -/
theorem emit_delivers_to_all
    (listeners : List (String × List (Nat → Except String Unit)))
    (event : String) (data : Nat) :
    emit listeners event data =
      Except.ok (((listeners.lookup event).getD []).map
        fun cb => callbackLog cb data) := by
  rw [emit]
  cases listeners.lookup event with
  | none => rfl
  | some cbs =>
    simp only [Option.getD_some]
    exact runListeners_eq cbs data
